import Mathlib

/-!
Verification of the weight-tracker core: entry model and validation,
the Store list/update contracts (in-memory MockStore and the DBStore
dispatch), the statistics engine, and the chart pipeline.

Modelling conventions:
* `float64` weights are modelled as exact rationals (`ℚ`).
* `time.Time` dates are modelled as an integer count of hours since Go's
  zero time (0001-01-01 00:00:00 UTC).  Thus `t.IsZero()` is `d = 0`,
  `t.Before u` is `d < e`, `t.Sub u` (in hours) is `d - e`, and since year 1
  of the proleptic Gregorian calendar has 365 days, `t.Year() > 1` is
  `8760 ≤ d` (8760 = 365 * 24) and `t.Year() <= 1` is `d < 8760`.
* Go errors are modelled as `Except String`, carrying the message.
-/

namespace WeightTracker

/-- Embeds `WeightEntry` (cmd/tracker/store.go). -/
structure WeightEntry where
  id : Int
  weight : ℚ
  date : Int
  unit : String
  note : String
  userID : String
deriving DecidableEq

/-- Embeds `ListOptions` (cmd/tracker/store.go): zero values are
`none`, `0`, `""`, `false`. -/
structure ListOptions where
  fromDate : Option Int := none
  toDate : Option Int := none
  limit : Int := 0
  sortBy : String := ""
  sortDesc : Bool := false
  unit : String := ""
deriving DecidableEq

/-- `t.IsZero()` in the hours-since-zero-time model. -/
def dateIsZero (d : Int) : Bool := d == 0

/-- `t.Year() > 1` in the hours-since-zero-time model: the instant is at or
after 0002-01-01 00:00 UTC, which is hour 365 * 24 = 8760. -/
def dateYearGT1 (d : Int) : Bool := 8760 ≤ d

/-- The valid-date test `!t.IsZero() && t.Year() > 1` used by stats.go and
the chart pipeline. -/
def isValidDate (d : Int) : Bool := !dateIsZero d && dateYearGT1 d

/-- Embeds `ValidateWeightEntry` (cmd/tracker/store.go lines 327-338). -/
def ValidateWeightEntry (entry : WeightEntry) : Except String Unit :=
  if entry.weight ≤ 0 then
    .error "weight must be greater than 0"
  else if entry.unit ≠ "" && entry.unit ≠ "kg" && entry.unit ≠ "lbs" then
    .error ("unit must be 'kg' or 'lbs', got: " ++ entry.unit)
  else
    .ok ()

/-!
The sort used by `MockStore.ListWeights` (store_mock.go lines 72-116) is the
nested-loop exchange sort

  for i := 0; i < len(result)-1; i++ \x7b
    for j := i + 1; j < len(result); j++ \x7b
      if swapNeeded(result[i], result[j]) \x7b swap(i, j) \x7d \x7d \x7d

Its list-level transcription: the inner loop, at outer index `i`, carries the
current value of `result[i]` (`h` below) across the tail; whenever
`swapNeeded h x` holds at position `j`, positions `i` and `j` swap, so the
scan continues with `x` as the carried value and `h` deposited at `j`.
After the inner loop, position `i` is final and the outer loop recurses on
the tail the inner loop left behind. -/

/-- One inner-loop pass: given the value at the outer index and the tail,
returns the final value of the outer cell and the resulting tail. -/
def exchSelect (swapNeeded : α → α → Bool) : α → List α → α × List α
  | h, [] => (h, [])
  | h, x :: xs =>
    if swapNeeded h x then
      let p := exchSelect swapNeeded x xs
      (p.1, h :: p.2)
    else
      let p := exchSelect swapNeeded h xs
      (p.1, x :: p.2)

/-- The outer loop, recursing structurally on a fuel counter.  One outer
iteration fixes one position, and `exchSelect` preserves the tail's length
(`exchSelect_length`), so fuel equal to the list's length (as supplied by
`exchSort`) always reaches the base case `[]`; the fuel-exhausted branch is
unreachable then. -/
def exchSortFuel (swapNeeded : α → α → Bool) : Nat → List α → List α
  | _, [] => []
  | 0, l => l
  | n + 1, h :: t =>
    let p := exchSelect swapNeeded h t
    p.1 :: exchSortFuel swapNeeded n p.2

/-- The full nested-loop exchange sort of store_mock.go. -/
def exchSort (swapNeeded : α → α → Bool) (l : List α) : List α :=
  exchSortFuel swapNeeded l.length l

/-- Embeds the date-range filter of `MockStore.ListWeights`
(store_mock.go lines 42-59): `Before`/`After` are strict comparisons and
there is no special handling of the zero-date sentinel. -/
def mockDateFilter (options : ListOptions) (result : List WeightEntry) :
    List WeightEntry :=
  if options.fromDate.isSome || options.toDate.isSome then
    result.filter fun entry =>
      (match options.fromDate with
       | some f => !decide (entry.date < f)
       | none => true) &&
      (match options.toDate with
       | some t => !decide (t < entry.date)
       | none => true)
  else result

/-- Embeds the unit filter of `MockStore.ListWeights`
(store_mock.go lines 62-70). -/
def mockUnitFilter (options : ListOptions) (result : List WeightEntry) :
    List WeightEntry :=
  if options.unit ≠ "" then
    result.filter fun entry => entry.unit == options.unit
  else result

/-- Embeds the sort stage of `MockStore.ListWeights`
(store_mock.go lines 72-116).  The swap conditions are the source's:
date desc swaps on `result[i].Date.Before(result[j].Date)`,
date asc on `After`, weight desc on `<`, weight asc on `>`.
An empty or unrecognized `SortBy` applies no sort. -/
def mockSort (options : ListOptions) (result : List WeightEntry) :
    List WeightEntry :=
  match options.sortBy with
  | "date" =>
    if options.sortDesc then
      exchSort (fun a b => decide (a.date < b.date)) result
    else
      exchSort (fun a b => decide (b.date < a.date)) result
  | "weight" =>
    if options.sortDesc then
      exchSort (fun a b => decide (a.weight < b.weight)) result
    else
      exchSort (fun a b => decide (b.weight < a.weight)) result
  | _ => result

/-- Embeds the limit stage of `MockStore.ListWeights`
(store_mock.go lines 119-121). -/
def mockLimit (options : ListOptions) (result : List WeightEntry) :
    List WeightEntry :=
  if 0 < options.limit ∧ options.limit < result.length then
    result.take options.limit.toNat
  else result

/-- Embeds `MockStore.ListWeights` (store_mock.go lines 36-124): date filter,
then unit filter, then sort, then limit, over the stored entries. -/
def mockListWeights (entries : List WeightEntry) (options : ListOptions) :
    List WeightEntry :=
  mockLimit options (mockSort options (mockUnitFilter options
    (mockDateFilter options entries)))

/-- The four sqlc queries `DBStore.ListWeights` can dispatch to
(queries.sql). -/
inductive DBQuery where
  | dateAsc | dateDesc | weightAsc | weightDesc
deriving DecidableEq

/-- Embeds the query dispatch of `DBStore.ListWeights`
(store.go lines 110-173): an empty `SortBy` defaults to `"date"`, then the
switch selects the query by key and direction, with date-desc as the
fall-through default. -/
def dbSelectQuery (options : ListOptions) : DBQuery :=
  let sortBy := if options.sortBy = "" then "date" else options.sortBy
  if sortBy = "date" ∧ options.sortDesc = true then .dateDesc
  else if sortBy = "date" ∧ options.sortDesc = false then .dateAsc
  else if sortBy = "weight" ∧ options.sortDesc = true then .weightDesc
  else if sortBy = "weight" ∧ options.sortDesc = false then .weightAsc
  else .dateDesc

/-- The partial merge shared by both `UpdateWeight` implementations
(store.go lines 247-265, store_mock.go lines 164-182): a field of the sparse
input overrides the existing entry only when it is not the zero value. -/
def mergeEntry (existingEntry entry : WeightEntry) : WeightEntry :=
  let u := existingEntry
  let u := if entry.weight ≠ 0 then { u with weight := entry.weight } else u
  let u := if !dateIsZero entry.date then { u with date := entry.date } else u
  let u := if entry.unit ≠ "" then { u with unit := entry.unit } else u
  let u := if entry.note ≠ "" then { u with note := entry.note } else u
  if entry.userID ≠ "" then { u with userID := entry.userID } else u

/-- The scan-and-replace loop of `MockStore.UpdateWeight`
(store_mock.go lines 162-188): first entry with a matching id is merged and
replaced in place. -/
def mockUpdateLoop (entry : WeightEntry) :
    List WeightEntry → Except String (WeightEntry × List WeightEntry)
  | [] =>
    .error ("weight entry with id " ++ toString entry.id ++ " not found")
  | existingEntry :: rest =>
    if existingEntry.id == entry.id then
      let updatedEntry := mergeEntry existingEntry entry
      .ok (updatedEntry, updatedEntry :: rest)
    else
      match mockUpdateLoop entry rest with
      | .error e => .error e
      | .ok p => .ok (p.1, existingEntry :: p.2)

/-- Embeds `MockStore.UpdateWeight` (store_mock.go lines 152-189).  Note the
order of operations in the source: the SPARSE input entry itself is passed
to `ValidateWeightEntry` before the merge loop runs. -/
def mockUpdateWeight (entries : List WeightEntry) (entry : WeightEntry) :
    Except String (WeightEntry × List WeightEntry) :=
  if entry.id ≤ 0 then .error ("invalid ID: " ++ toString entry.id)
  else
    match ValidateWeightEntry entry with
    | .error e => .error e
    | .ok _ => mockUpdateLoop entry entries

/-- Embeds `DBStore.UpdateWeight` (store.go lines 236-290): fetch the
existing row by id, merge the sparse input over it, validate the MERGED
entry, then persist and return it.  The database date round-trip
(format to ISO day string and re-parse) is the identity on stored rows,
whose dates are already day-granular. -/
def dbUpdateWeight (rows : List WeightEntry) (entry : WeightEntry) :
    Except String (WeightEntry × List WeightEntry) :=
  if entry.id ≤ 0 then .error ("invalid ID: " ++ toString entry.id)
  else
    match rows.find? (fun r => r.id == entry.id) with
    | none =>
      .error ("weight entry with id " ++ toString entry.id ++ " not found")
    | some existingEntry =>
      let updatedEntry := mergeEntry existingEntry entry
      match ValidateWeightEntry updatedEntry with
      | .error e => .error e
      | .ok _ =>
        .ok (updatedEntry,
          rows.map fun r => if r.id == entry.id then updatedEntry else r)

/-- The Go zero value of `WeightEntry`. -/
def zeroEntry : WeightEntry := ⟨0, 0, 0, "", "", ""⟩

/-- Embeds `WeightStatistics` (cmd/tracker/stats.go lines 68-79);
`timeSpan` is a duration in hours (the date model's unit). -/
structure WeightStatistics where
  minWeight : ℚ
  minWeightEntry : WeightEntry
  maxWeight : ℚ
  maxWeightEntry : WeightEntry
  averageWeight : ℚ
  totalEntries : Nat
  timeSpan : Int
  weightRange : ℚ
  firstEntry : WeightEntry
  lastEntry : WeightEntry
deriving DecidableEq

/-- The loop state of `calculateStatistics` (stats.go lines 86-116). -/
structure StatsAcc where
  firstE : WeightEntry
  lastE : WeightEntry
  minE : WeightEntry
  maxE : WeightEntry
  totalWeight : ℚ
  validDates : Nat
deriving DecidableEq

/-- `if entry.Weight < minEntry.Weight` (stats.go lines 97-99): strict, so
ties keep the first-seen entry. -/
def statsMin (acc : StatsAcc) (entry : WeightEntry) : StatsAcc :=
  if entry.weight < acc.minE.weight then { acc with minE := entry } else acc

/-- `if entry.Weight > maxEntry.Weight` (stats.go lines 100-102). -/
def statsMax (acc : StatsAcc) (entry : WeightEntry) : StatsAcc :=
  if acc.maxE.weight < entry.weight then { acc with maxE := entry } else acc

/-- The min/max tracking of the `calculateStatistics` loop, in source
order. -/
def statsMinMax (acc : StatsAcc) (entry : WeightEntry) : StatsAcc :=
  statsMax (statsMin acc entry) entry

/-- `validDates++` (stats.go line 106). -/
def statsBumpValid (acc : StatsAcc) : StatsAcc :=
  { acc with validDates := acc.validDates + 1 }

/-- The first-entry update (stats.go lines 107-109): the tracked entry is
replaced when the new entry's date precedes it, or when the tracked entry is
itself zero-dated or in year ≤ 1. -/
def statsFirst (acc : StatsAcc) (entry : WeightEntry) : StatsAcc :=
  if decide (entry.date < acc.firstE.date) || dateIsZero acc.firstE.date
      || !dateYearGT1 acc.firstE.date then
    { acc with firstE := entry } else acc

/-- The last-entry update (stats.go lines 110-112). -/
def statsLast (acc : StatsAcc) (entry : WeightEntry) : StatsAcc :=
  if decide (acc.lastE.date < entry.date) || dateIsZero acc.lastE.date
      || !dateYearGT1 acc.lastE.date then
    { acc with lastE := entry } else acc

/-- The date tracking of the `calculateStatistics` loop
(stats.go lines 104-113), guarded by the valid-date test
`!entry.Date.IsZero() && entry.Date.Year() > 1`. -/
def statsDates (acc : StatsAcc) (entry : WeightEntry) : StatsAcc :=
  if !dateIsZero entry.date && dateYearGT1 entry.date then
    statsLast (statsFirst (statsBumpValid acc) entry) entry
  else acc

/-- One iteration of the `calculateStatistics` loop
(stats.go lines 95-116), in source order: min/max tracking, first/last
tracking, then the running weight sum. -/
def statsStep (acc : StatsAcc) (entry : WeightEntry) : StatsAcc :=
  let acc := statsMinMax acc entry
  let acc := statsDates acc entry
  { acc with totalWeight := acc.totalWeight + entry.weight }

/-- Embeds `calculateStatistics` (stats.go lines 81-142).  The empty input
returns the Go zero value of `WeightStatistics`; otherwise the loop runs
over all entries with every tracked entry initialized to the first one. -/
def calculateStatistics : List WeightEntry → WeightStatistics
  | [] => ⟨0, zeroEntry, 0, zeroEntry, 0, 0, 0, 0, zeroEntry, zeroEntry⟩
  | e0 :: rest =>
    let entries := e0 :: rest
    let acc := entries.foldl statsStep ⟨e0, e0, e0, e0, 0, 0⟩
    let averageWeight := acc.totalWeight / (entries.length : ℚ)
    let timeSpan : Int :=
      if 1 < acc.validDates then acc.lastE.date - acc.firstE.date else 0
    ⟨acc.minE.weight, acc.minE, acc.maxE.weight, acc.maxE, averageWeight,
      entries.length, timeSpan, acc.maxE.weight - acc.minE.weight,
      acc.firstE, acc.lastE⟩

/-- Embeds `GraphOptions` (graph.go lines 29-35); the output type strings
are "terminal", "html", "png". -/
structure GraphOptions where
  outputType : String := ""
  outputFile : String := ""
  width : Int := 0
  height : Int := 0
  title : String := ""
deriving DecidableEq

/-- Models `sort.Slice(entries, less = entries[i].Date.Before(entries[j].Date))`
used at graph.go lines 71-73 and 221-223.  Go's slice sort is an unstable
comparison sort; insertion sort is one concrete comparison sort with the
same ordering relation, and every property proved below (sortedness by
date, permutation) is independent of how it orders equal dates. -/
def sortByDateAsc (entries : List WeightEntry) : List WeightEntry :=
  List.insertionSort (fun a b => a.date ≤ b.date) entries

/-- The proper-dates scan of `generateHTMLChart` (graph.go lines 196-203). -/
def hasProperDates (entries : List WeightEntry) : Bool :=
  entries.any fun e => !dateIsZero e.date && dateYearGT1 e.date

/-- The proper-dated entries, sorted by date ascending, that
`generateHTMLChart` plots (graph.go lines 212-227). -/
def htmlValidSorted (entries : List WeightEntry) : List WeightEntry :=
  sortByDateAsc (entries.filter fun e => !dateIsZero e.date && dateYearGT1 e.date)

/-- The time-normalized x-coordinate series of `generateHTMLChart`
(graph.go lines 229-239): each valid entry is mapped to
`daysFromStart = entry.Date.Sub(startTime).Hours() / 24` where `startTime`
is the first (earliest) valid entry's date.  The code then prints each
coordinate with the format string "%.1f"; the series itself is the exact
rational value. -/
def htmlXCoords (entries : List WeightEntry) : List ℚ :=
  match htmlValidSorted entries with
  | [] => []
  | v0 :: rest =>
    (v0 :: rest).map fun e => ((e.date - v0.date : Int) : ℚ) / 24

/-- The x-axis series of `generateHTMLChart` (graph.go lines 186-239) as
numbers: empty input is a NoData error; without any proper date the code
falls back to one ordinal category "Entry N" per entry (modelled by its
ordinal N); otherwise the time-normalized series. -/
def generateHTMLChart (entries : List WeightEntry) :
    Except String (List ℚ) :=
  if entries.length = 0 then .error "no entries to display"
  else if !hasProperDates entries then
    .ok ((List.range entries.length).map fun i => ((i + 1 : Nat) : ℚ))
  else
    match htmlXCoords entries with
    | [] => .error "no valid entries with proper dates"
    | xs => .ok xs

/-- The min/max weight scan of `generateASCIIChart`
(graph.go lines 94-103): both start at the first entry's weight and are
updated by strict comparisons.  The empty case is unreachable in the source
(the NoData guard precedes it). -/
def asciiMinMax : List WeightEntry → ℚ × ℚ
  | [] => (0, 0)
  | e0 :: rest =>
    (e0 :: rest).foldl
      (fun p e => (if e.weight < p.1 then e.weight else p.1,
                   if p.2 < e.weight then e.weight else p.2))
      (e0.weight, e0.weight)

/-- The vertical display range of `generateASCIIChart`
(graph.go lines 105-113): replace a zero weight range by 1, then take 10%
of that range as padding on each side.  The Go literal `0.1` is modelled as
the exact rational 1/10. -/
def asciiPaddedBounds (entries : List WeightEntry) : ℚ × ℚ :=
  let scan := asciiMinMax entries
  let minWeight := scan.1
  let maxWeight := scan.2
  let weightRange := maxWeight - minWeight
  let weightRange := if weightRange = 0 then 1 else weightRange
  let padding := weightRange * (1 / 10)
  (minWeight - padding, maxWeight + padding)

/-- `generateASCIIChart` (graph.go lines 89-183) as an outcome: it fails
only on an empty entry list, otherwise prints the grid and succeeds. -/
def generateASCIIChart (entries : List WeightEntry) : Except String Unit :=
  if entries.length = 0 then .error "no entries to display" else .ok ()

/-- Embeds `GenerateWeightChart` (graph.go lines 65-86).  The first
component is the Go return value (output path, or the error); the second is
the state of the caller's entries slice AFTER the call — the in-place
`sort.Slice` on line 71 runs before the output-type switch, so every
non-empty call leaves the slice date-sorted. -/
def GenerateWeightChart (entries : List WeightEntry)
    (options : GraphOptions) : Except String String × List WeightEntry :=
  if entries.length = 0 then
    (.error "no weight entries to display", entries)
  else
    let sorted := sortByDateAsc entries
    match options.outputType with
    | "terminal" =>
      (match generateASCIIChart sorted with
       | .error e => .error e
       | .ok _ => .ok "", sorted)
    | "html" =>
      (match generateHTMLChart sorted with
       | .error e => .error e
       | .ok _ => .ok options.outputFile, sorted)
    | "png" =>
      (match generateHTMLChart sorted with
       | .error e => .error e
       | .ok _ => .ok options.outputFile, sorted)
    | other => (.error ("unsupported output type: " ++ other), sorted)

theorem exchSelect_length (swapNeeded : α → α → Bool) (h : α) (t : List α) :
    (exchSelect swapNeeded h t).2.length = t.length := by
  induction t generalizing h with
  | nil => rfl
  | cons x xs ih =>
    unfold exchSelect
    by_cases hs : swapNeeded h x = true
    · simp [hs, ih]
    · simp [hs, ih]

theorem exchSelect_perm (sw : α → α → Bool) (h : α) (t : List α) :
    ((exchSelect sw h t).1 :: (exchSelect sw h t).2).Perm (h :: t) := by
  induction t generalizing h with
  | nil => exact List.Perm.refl _
  | cons x xs ih =>
    unfold exchSelect
    by_cases hs : sw h x = true
    · simp only [hs, if_true]
      exact (List.Perm.swap h (exchSelect sw x xs).1 (exchSelect sw x xs).2).trans
        (List.Perm.cons h (ih x))
    · simp only [hs, if_false]
      exact (List.Perm.swap x (exchSelect sw h xs).1 (exchSelect sw h xs).2).trans
        ((List.Perm.cons x (ih h)).trans (List.Perm.swap h x xs))

theorem exchSelect_le (r sw : α → α → Bool) (hsw : ∀ a b, sw a b = !r a b)
    (htot : ∀ a b, r a b = true ∨ r b a = true)
    (htrans : ∀ a b c, r a b = true → r b c = true → r a c = true)
    (h : α) (t : List α) :
    r (exchSelect sw h t).1 h = true ∧
      ∀ y ∈ (exchSelect sw h t).2, r (exchSelect sw h t).1 y = true := by
  induction t generalizing h with
  | nil =>
    refine ⟨?_, by simp [exchSelect]⟩
    rcases htot h h with hh | hh <;> simpa [exchSelect] using hh
  | cons x xs ih =>
    unfold exchSelect
    by_cases hs : sw h x = true
    · have hxh : r x h = true := by
        rw [hsw] at hs
        rcases htot h x with hh | hh
        · rw [hh] at hs; exact absurd hs (by simp)
        · exact hh
      simp only [hs, if_true]
      obtain ⟨ih1, ih2⟩ := ih x
      refine ⟨htrans _ _ _ ih1 hxh, ?_⟩
      intro y hy
      rcases List.mem_cons.mp hy with hyh | hyt
      · rw [hyh]
        exact htrans _ _ _ ih1 hxh
      · exact ih2 y hyt
    · have hhx : r h x = true := by
        rw [hsw] at hs
        simpa using hs
      simp only [hs, if_false]
      obtain ⟨ih1, ih2⟩ := ih h
      refine ⟨ih1, ?_⟩
      intro y hy
      rcases List.mem_cons.mp hy with hyx | hyt
      · rw [hyx]
        exact htrans _ _ _ ih1 hhx
      · exact ih2 y hyt

theorem exchSortFuel_perm (sw : α → α → Bool) :
    ∀ n (l : List α), l.length ≤ n → (exchSortFuel sw n l).Perm l := by
  intro n
  induction n with
  | zero =>
    intro l hl
    rw [List.length_eq_zero.mp (Nat.le_zero.mp hl)]
    exact List.Perm.refl _
  | succ n ih =>
    intro l hl
    match l with
    | [] => exact List.Perm.refl _
    | h :: t =>
      rw [exchSortFuel]
      refine (List.Perm.cons _ (ih _ ?_)).trans (exchSelect_perm sw h t)
      rw [exchSelect_length]
      simpa using hl

theorem exchSort_perm (sw : α → α → Bool) (l : List α) :
    (exchSort sw l).Perm l :=
  exchSortFuel_perm sw l.length l le_rfl

theorem exchSortFuel_pairwise (r sw : α → α → Bool)
    (hsw : ∀ a b, sw a b = !r a b)
    (htot : ∀ a b, r a b = true ∨ r b a = true)
    (htrans : ∀ a b c, r a b = true → r b c = true → r a c = true) :
    ∀ n (l : List α), l.length ≤ n →
      (exchSortFuel sw n l).Pairwise (fun a b => r a b = true) := by
  intro n
  induction n with
  | zero =>
    intro l hl
    rw [List.length_eq_zero.mp (Nat.le_zero.mp hl)]
    exact List.Pairwise.nil
  | succ n ih =>
    intro l hl
    match l with
    | [] => exact List.Pairwise.nil
    | h :: t =>
      rw [exchSortFuel]
      have hlen : (exchSelect sw h t).2.length ≤ n := by
        rw [exchSelect_length]
        simpa using hl
      refine List.pairwise_cons.mpr ⟨?_, ih _ hlen⟩
      intro b hb
      have hb2 : b ∈ (exchSelect sw h t).2 :=
        (exchSortFuel_perm sw n _ hlen).mem_iff.mp hb
      exact (exchSelect_le r sw hsw htot htrans h t).2 b hb2

theorem exchSort_pairwise (r sw : α → α → Bool)
    (hsw : ∀ a b, sw a b = !r a b)
    (htot : ∀ a b, r a b = true ∨ r b a = true)
    (htrans : ∀ a b c, r a b = true → r b c = true → r a c = true)
    (l : List α) :
    (exchSort sw l).Pairwise (fun a b => r a b = true) :=
  exchSortFuel_pairwise r sw hsw htot htrans l.length l le_rfl

theorem mockLimit_pairwise {R : WeightEntry → WeightEntry → Prop}
    (o : ListOptions) (r : List WeightEntry) (h : r.Pairwise R) :
    (mockLimit o r).Pairwise R := by
  unfold mockLimit
  split
  · exact h.sublist (List.take_sublist _ _)
  · exact h

theorem mockSort_perm (o : ListOptions) (r : List WeightEntry) :
    (mockSort o r).Perm r := by
  unfold mockSort
  split
  · split <;> exact exchSort_perm _ _
  · split <;> exact exchSort_perm _ _
  · exact List.Perm.refl _

theorem rat_le_total_tools (f : WeightEntry → ℚ) :
    (∀ a b : WeightEntry, decide (f b < f a) = !decide (f a ≤ f b))
    ∧ (∀ a b : WeightEntry,
        decide (f a ≤ f b) = true ∨ decide (f b ≤ f a) = true)
    ∧ (∀ a b c : WeightEntry, decide (f a ≤ f b) = true →
        decide (f b ≤ f c) = true → decide (f a ≤ f c) = true) := by
  refine ⟨?_, ?_, ?_⟩
  · intro a b
    rw [← decide_not]
    exact decide_eq_decide.mpr not_le.symm
  · intro a b
    simpa using le_total (f a) (f b)
  · intro a b c h1 h2
    simp only [decide_eq_true_eq] at h1 h2 ⊢
    exact le_trans h1 h2

theorem int_le_total_tools (f : WeightEntry → Int) :
    (∀ a b : WeightEntry, decide (f b < f a) = !decide (f a ≤ f b))
    ∧ (∀ a b : WeightEntry,
        decide (f a ≤ f b) = true ∨ decide (f b ≤ f a) = true)
    ∧ (∀ a b c : WeightEntry, decide (f a ≤ f b) = true →
        decide (f b ≤ f c) = true → decide (f a ≤ f c) = true) := by
  refine ⟨?_, ?_, ?_⟩
  · intro a b
    rw [← decide_not]
    exact decide_eq_decide.mpr not_le.symm
  · intro a b
    simpa using le_total (f a) (f b)
  · intro a b c h1 h2
    simp only [decide_eq_true_eq] at h1 h2 ⊢
    exact le_trans h1 h2

end WeightTracker

namespace WeightTracker

/-- C1 counterexample: the sort in `MockStore.ListWeights` is not stable.
In a store holding entries with ids 1, 2, 3 and weights 2, 2, 1 (in that
insertion order), listing with sort key `weight` ascending returns the two
weight-2 entries in the opposite relative order: id 1 precedes id 2 in the
store, but id 2 precedes id 1 in the output. -/
theorem mock_sort_unstable_cex :
    mockListWeights
        [⟨1, 2, 0, "", "", ""⟩, ⟨2, 2, 0, "", "", ""⟩, ⟨3, 1, 0, "", "", ""⟩]
        { sortBy := "weight" } =
      [⟨3, 1, 0, "", "", ""⟩, ⟨2, 2, 0, "", "", ""⟩, ⟨1, 2, 0, "", "", ""⟩]
    ∧ (⟨1, 2, 0, "", "", ""⟩ : WeightEntry).weight
        = (⟨2, 2, 0, "", "", ""⟩ : WeightEntry).weight
    ∧ List.indexOf (⟨1, 2, 0, "", "", ""⟩ : WeightEntry)
          [⟨1, 2, 0, "", "", ""⟩, ⟨2, 2, 0, "", "", ""⟩, ⟨3, 1, 0, "", "", ""⟩]
        < List.indexOf (⟨2, 2, 0, "", "", ""⟩ : WeightEntry)
          [⟨1, 2, 0, "", "", ""⟩, ⟨2, 2, 0, "", "", ""⟩, ⟨3, 1, 0, "", "", ""⟩]
    ∧ List.indexOf (⟨2, 2, 0, "", "", ""⟩ : WeightEntry)
          (mockListWeights
            [⟨1, 2, 0, "", "", ""⟩, ⟨2, 2, 0, "", "", ""⟩, ⟨3, 1, 0, "", "", ""⟩]
            { sortBy := "weight" })
        < List.indexOf (⟨1, 2, 0, "", "", ""⟩ : WeightEntry)
          (mockListWeights
            [⟨1, 2, 0, "", "", ""⟩, ⟨2, 2, 0, "", "", ""⟩, ⟨3, 1, 0, "", "", ""⟩]
            { sortBy := "weight" }) := by
  decide

/-- C1 amended: for every `MockStore.ListWeights` call with sort key
`weight` or `date`, the output is ordered (non-strictly) by the chosen key
in the chosen direction, and the sort stage permutes the filtered entries
(no entry is gained or lost); ties, however, are not guaranteed to keep
their original relative order (the exchange sort is unstable, see the
counterexample). -/
theorem mockListWeights_sorted_perm (es : List WeightEntry) (o : ListOptions) :
    (o.sortBy = "weight" → o.sortDesc = false →
      (mockListWeights es o).Pairwise (fun a b => a.weight ≤ b.weight))
    ∧ (o.sortBy = "weight" → o.sortDesc = true →
      (mockListWeights es o).Pairwise (fun a b => b.weight ≤ a.weight))
    ∧ (o.sortBy = "date" → o.sortDesc = false →
      (mockListWeights es o).Pairwise (fun a b => a.date ≤ b.date))
    ∧ (o.sortBy = "date" → o.sortDesc = true →
      (mockListWeights es o).Pairwise (fun a b => b.date ≤ a.date))
    ∧ (mockSort o (mockUnitFilter o (mockDateFilter o es))).Perm
        (mockUnitFilter o (mockDateFilter o es)) := by
  obtain ⟨hswW, htotW, htransW⟩ := rat_le_total_tools (fun e => e.weight)
  obtain ⟨hswD, htotD, htransD⟩ := int_le_total_tools (fun e => e.date)
  refine ⟨?_, ?_, ?_, ?_, mockSort_perm o _⟩
  · intro hk hd
    unfold mockListWeights
    refine mockLimit_pairwise o _ ?_
    unfold mockSort
    rw [hk, hd]
    have := exchSort_pairwise _ _ hswW htotW htransW
      (mockUnitFilter o (mockDateFilter o es))
    exact (this.imp fun hab => of_decide_eq_true hab)
  · intro hk hd
    unfold mockListWeights
    refine mockLimit_pairwise o _ ?_
    unfold mockSort
    rw [hk, hd]
    have := exchSort_pairwise (fun a b => decide (b.weight ≤ a.weight))
      (fun a b => decide (a.weight < b.weight))
      (fun a b => hswW b a) (fun a b => htotW b a)
      (fun a b c h1 h2 => htransW c b a h2 h1)
      (mockUnitFilter o (mockDateFilter o es))
    exact (this.imp fun hab => of_decide_eq_true hab)
  · intro hk hd
    unfold mockListWeights
    refine mockLimit_pairwise o _ ?_
    unfold mockSort
    rw [hk, hd]
    have := exchSort_pairwise _ _ hswD htotD htransD
      (mockUnitFilter o (mockDateFilter o es))
    exact (this.imp fun hab => of_decide_eq_true hab)
  · intro hk hd
    unfold mockListWeights
    refine mockLimit_pairwise o _ ?_
    unfold mockSort
    rw [hk, hd]
    have := exchSort_pairwise (fun a b => decide (b.date ≤ a.date))
      (fun a b => decide (a.date < b.date))
      (fun a b => hswD b a) (fun a b => htotD b a)
      (fun a b c h1 h2 => htransD c b a h2 h1)
      (mockUnitFilter o (mockDateFilter o es))
    exact (this.imp fun hab => of_decide_eq_true hab)

/-- C1 witness: the amended theorem applied to a concrete store and a
weight-ascending list call. -/
theorem mockListWeights_sorted_perm_witness :
    ((⟨1, 2, 0, "", "", ""⟩ : WeightEntry) :: [⟨3, 1, 0, "", "", ""⟩]).length = 2
    ∧ (mockListWeights [⟨1, 2, 0, "", "", ""⟩, ⟨3, 1, 0, "", "", ""⟩]
        { sortBy := "weight" }).Pairwise (fun a b => a.weight ≤ b.weight) :=
  ⟨rfl,
    (mockListWeights_sorted_perm [⟨1, 2, 0, "", "", ""⟩, ⟨3, 1, 0, "", "", ""⟩]
      { sortBy := "weight" }).1 rfl rfl⟩

/-- C4 counterexample: a list call with zero-value options on the in-memory
store returns the entries in insertion order, which for a store holding an
older entry before a newer one is not descending by date. -/
theorem mock_default_order_cex :
    mockListWeights [⟨1, 80, 9000, "", "", ""⟩, ⟨2, 81, 10000, "", "", ""⟩]
        {} =
      [⟨1, 80, 9000, "", "", ""⟩, ⟨2, 81, 10000, "", "", ""⟩]
    ∧ ¬ (mockListWeights
          [⟨1, 80, 9000, "", "", ""⟩, ⟨2, 81, 10000, "", "", ""⟩]
          {}).Pairwise (fun a b => b.date ≤ a.date) := by
  constructor
  · decide
  · decide

/-- C4 amended: with zero-value options (empty sort key, `SortDesc` false),
`MockStore.ListWeights` applies no sort at all and returns the stored
entries unchanged, while `DBStore.ListWeights` defaults the key to `date`
and dispatches to the date-ascending query (descending-by-default lives in
the CLI layer's `--desc` flag, not in the stores). -/
theorem zero_options_defaults (es : List WeightEntry) :
    mockListWeights es {} = es ∧ dbSelectQuery {} = .dateAsc := by
  constructor
  · unfold mockListWeights mockLimit mockSort mockUnitFilter mockDateFilter
    simp
    rfl
  · rfl

theorem mockLimit_mem {e : WeightEntry} (o : ListOptions)
    (r : List WeightEntry) (h : e ∈ mockLimit o r) : e ∈ r := by
  unfold mockLimit at h
  split at h
  · exact (List.take_sublist _ _).subset h
  · exact h

theorem mockUnitFilter_mem {e : WeightEntry} (o : ListOptions)
    (r : List WeightEntry) (h : e ∈ mockUnitFilter o r) : e ∈ r := by
  unfold mockUnitFilter at h
  split at h
  · exact (List.mem_filter.mp h).1
  · exact h

end WeightTracker

namespace WeightTracker

/-- C3 counterexample: in `MockStore.ListWeights`, with only a to-date bound
active, an entry whose date is the zero sentinel passes the date filter and
is returned. -/
theorem mock_todate_keeps_unset_cex :
    dateIsZero (⟨1, 80, 0, "", "", ""⟩ : WeightEntry).date = true
    ∧ mockListWeights [⟨1, 80, 0, "", "", ""⟩] { toDate := some 100 } =
        [⟨1, 80, 0, "", "", ""⟩] := by
  decide

/-- C3 amended: the date filter excludes unset-date entries only through the
from-date bound: when `FromDate` is set to any date after the zero sentinel,
no returned entry has the sentinel date (the sentinel strictly precedes the
bound, so `entry.Date.Before(*options.FromDate)` drops it); with only a
to-date bound the sentinel satisfies the bound and such entries are
returned (see the counterexample). -/
theorem mock_fromdate_excludes_unset (es : List WeightEntry)
    (o : ListOptions) (f : Int) (hf : o.fromDate = some f) (hpos : 0 < f) :
    ∀ e ∈ mockListWeights es o, dateIsZero e.date = false := by
  intro e he
  have h1 : e ∈ mockSort o (mockUnitFilter o (mockDateFilter o es)) :=
    mockLimit_mem o _ he
  have h2 : e ∈ mockUnitFilter o (mockDateFilter o es) :=
    (mockSort_perm o _).mem_iff.mp h1
  have h3 : e ∈ mockDateFilter o es := mockUnitFilter_mem o _ h2
  unfold mockDateFilter at h3
  rw [hf] at h3
  simp only [Option.isSome_some, Bool.true_or, if_true] at h3
  have h4 := (List.mem_filter.mp h3).2
  simp only [Bool.and_eq_true, Bool.not_eq_true', decide_eq_false_iff_not,
    not_lt] at h4
  have hfe : f ≤ e.date := h4.1
  simp only [dateIsZero, beq_eq_false_iff_ne, ne_eq]
  omega

/-- C3 witness: the amended theorem applied to a concrete store holding one
real-dated and one sentinel-dated entry, with a from-date bound of hour 1. -/
theorem mock_fromdate_excludes_unset_witness :
    ({ fromDate := some 1 } : ListOptions).fromDate = some 1
    ∧ (0 : Int) < 1
    ∧ ∀ e ∈ mockListWeights
        [⟨1, 80, 9000, "", "", ""⟩, ⟨2, 70, 0, "", "", ""⟩]
        { fromDate := some 1 }, dateIsZero e.date = false :=
  ⟨rfl, by decide,
    mock_fromdate_excludes_unset
      [⟨1, 80, 9000, "", "", ""⟩, ⟨2, 70, 0, "", "", ""⟩]
      { fromDate := some 1 } 1 rfl (by decide)⟩

end WeightTracker

namespace WeightTracker

/-- C8: `ValidateWeightEntry` accepts exactly when the weight is positive and
the unit is `""`, `"kg"` or `"lbs"`; the comparison is case-sensitive, so the
unit `"KG"` is rejected. -/
theorem validate_accepts_iff :
    (∀ e : WeightEntry, ValidateWeightEntry e = .ok () ↔
      (0 < e.weight ∧ (e.unit = "" ∨ e.unit = "kg" ∨ e.unit = "lbs")))
    ∧ ValidateWeightEntry ⟨1, 70, 0, "KG", "", ""⟩ =
        .error "unit must be 'kg' or 'lbs', got: KG" := by
  refine ⟨?_, rfl⟩
  intro e
  constructor
  · intro h
    unfold ValidateWeightEntry at h
    by_cases hw : e.weight ≤ 0
    · rw [if_pos hw] at h
      exact absurd h (by simp)
    · rw [if_neg hw] at h
      by_cases hu : (e.unit ≠ "" && e.unit ≠ "kg" && e.unit ≠ "lbs" : Bool) = true
      · rw [if_pos hu] at h
        exact absurd h (by simp)
      · refine ⟨not_le.mp hw, ?_⟩
        by_cases ha : e.unit = ""
        · exact Or.inl ha
        by_cases hb : e.unit = "kg"
        · exact Or.inr (Or.inl hb)
        by_cases hc : e.unit = "lbs"
        · exact Or.inr (Or.inr hc)
        exact absurd (by simp [ha, hb, hc]) hu
  · rintro ⟨h1, h2⟩
    unfold ValidateWeightEntry
    have hw : ¬ e.weight ≤ 0 := not_le.mpr h1
    have hu : ¬ ((e.unit ≠ "" && e.unit ≠ "kg" && e.unit ≠ "lbs" : Bool) = true) := by
      rcases h2 with h | h | h <;> simp [h]
    rw [if_neg hw, if_neg hu]

/-- C2: a note-only update against a stored entry with id 1, weight 75,
unit "kg" — `MockStore.UpdateWeight` validates the sparse input (whose
weight is the zero value 0) BEFORE merging and rejects it, while
`DBStore.UpdateWeight` validates the merged result and succeeds, returning
the entry with only the note changed and every other field preserved. -/
theorem update_note_only_divergence :
    mockUpdateWeight [⟨1, 75, 9000, "kg", "Original", ""⟩]
        ⟨1, 0, 0, "", "updated", ""⟩
      = .error "weight must be greater than 0"
    ∧ dbUpdateWeight [⟨1, 75, 9000, "kg", "Original", ""⟩]
        ⟨1, 0, 0, "", "updated", ""⟩
      = .ok (⟨1, 75, 9000, "kg", "updated", ""⟩,
             [⟨1, 75, 9000, "kg", "updated", ""⟩]) :=
  ⟨rfl, rfl⟩

/-- C9: on an empty entry list `calculateStatistics` returns the all-zero
statistics value without error, while `GenerateWeightChart` returns the
NoData error for every output form, leaving the (empty) slice unchanged. -/
theorem empty_stats_zero_chart_nodata :
    calculateStatistics [] =
      ⟨0, zeroEntry, 0, zeroEntry, 0, 0, 0, 0, zeroEntry, zeroEntry⟩
    ∧ ∀ options : GraphOptions,
        GenerateWeightChart [] options =
          (.error "no weight entries to display", []) :=
  ⟨rfl, fun _ => rfl⟩

/-- C7 counterexample: for a single entry of weight 80 (zero weight range)
the padded vertical range is (79.9, 80.1) — the substituted value 1 is the
RANGE fed to the 10% padding factor, not the padding itself — and not the
(79, 81) the claim asserts. -/
theorem ascii_zero_range_cex :
    asciiPaddedBounds [⟨1, 80, 9000, "kg", "", ""⟩] = (799/10, 801/10)
    ∧ asciiPaddedBounds [⟨1, 80, 9000, "kg", "", ""⟩] ≠ (79, 81) := by
  have h : asciiPaddedBounds [⟨1, 80, 9000, "kg", "", ""⟩] = (799/10, 801/10) := by
    simp only [asciiPaddedBounds, asciiMinMax, List.foldl_cons, List.foldl_nil]
    norm_num
  refine ⟨h, ?_⟩
  rw [h]
  intro hc
  rw [Prod.mk.injEq] at hc
  have h1 := hc.1
  norm_num at h1

/-- C7 amended: when all entries share one weight `w`, the zero range is
replaced by 1 BEFORE the 10% factor, so the displayed vertical range spans
`w - 0.1` to `w + 0.1`; when the range is nonzero it is expanded by 10% of
the range on each end. -/
theorem ascii_padding_bounds (entries : List WeightEntry) :
    (∀ w : ℚ, entries ≠ [] → (∀ e ∈ entries, e.weight = w) →
      asciiPaddedBounds entries = (w - 1/10, w + 1/10))
    ∧ ((asciiMinMax entries).1 ≠ (asciiMinMax entries).2 →
      asciiPaddedBounds entries =
        ((asciiMinMax entries).1
            - ((asciiMinMax entries).2 - (asciiMinMax entries).1) * (1/10),
         (asciiMinMax entries).2
            + ((asciiMinMax entries).2 - (asciiMinMax entries).1) * (1/10))) := by
  constructor
  · intro w hne hall
    match entries with
    | [] => exact absurd rfl hne
    | e0 :: rest =>
      have h0 : e0.weight = w := hall e0 (List.mem_cons_self e0 rest)
      have hstep : ∀ (l : List WeightEntry) (p : ℚ × ℚ), p = (w, w) →
          (∀ e ∈ l, e.weight = w) →
          l.foldl (fun p e => (if e.weight < p.1 then e.weight else p.1,
            if p.2 < e.weight then e.weight else p.2)) p = (w, w) := by
        intro l
        induction l with
        | nil =>
          intro p hp _
          simpa using hp
        | cons x xs ih =>
          intro p hp hl
          rw [List.foldl_cons]
          have hx : x.weight = w := hl x (List.mem_cons_self x xs)
          refine ih _ ?_ (fun e he => hl e (List.mem_cons_of_mem x he))
          rw [hp, hx]
          simp
      have hscan : asciiMinMax (e0 :: rest) = (w, w) := by
        have : asciiMinMax (e0 :: rest) = (e0 :: rest).foldl
            (fun p e => (if e.weight < p.1 then e.weight else p.1,
              if p.2 < e.weight then e.weight else p.2))
            (e0.weight, e0.weight) := rfl
        rw [this, List.foldl_cons]
        refine hstep rest _ ?_ (fun e he => hall e (List.mem_cons_of_mem e0 he))
        rw [h0]
        simp
      simp only [asciiPaddedBounds]
      rw [hscan]
      norm_num
  · intro hr
    have hr2 : ¬ ((asciiMinMax entries).2 - (asciiMinMax entries).1 = 0) :=
      sub_ne_zero_of_ne (Ne.symm hr)
    simp only [asciiPaddedBounds]
    rw [if_neg hr2]

/-- C7 witness: the amendment applied to a flat two-entry list (bounds
79.9 to 80.1) and to a list with range 10 (bounds 69 to 91). -/
theorem ascii_padding_bounds_witness :
    (([⟨1, 80, 9000, "kg", "", ""⟩, ⟨2, 80, 9100, "kg", "", ""⟩] :
        List WeightEntry) ≠ []
      ∧ asciiPaddedBounds [⟨1, 80, 9000, "kg", "", ""⟩, ⟨2, 80, 9100, "kg", "", ""⟩]
          = (80 - 1/10, 80 + 1/10))
    ∧ ((asciiMinMax [⟨1, 70, 9000, "kg", "", ""⟩, ⟨2, 80, 9100, "kg", "", ""⟩]).1
          ≠ (asciiMinMax [⟨1, 70, 9000, "kg", "", ""⟩, ⟨2, 80, 9100, "kg", "", ""⟩]).2
      ∧ asciiPaddedBounds [⟨1, 70, 9000, "kg", "", ""⟩, ⟨2, 80, 9100, "kg", "", ""⟩]
          = ((asciiMinMax [⟨1, 70, 9000, "kg", "", ""⟩, ⟨2, 80, 9100, "kg", "", ""⟩]).1
              - ((asciiMinMax [⟨1, 70, 9000, "kg", "", ""⟩, ⟨2, 80, 9100, "kg", "", ""⟩]).2
                - (asciiMinMax [⟨1, 70, 9000, "kg", "", ""⟩, ⟨2, 80, 9100, "kg", "", ""⟩]).1) * (1/10),
             (asciiMinMax [⟨1, 70, 9000, "kg", "", ""⟩, ⟨2, 80, 9100, "kg", "", ""⟩]).2
              + ((asciiMinMax [⟨1, 70, 9000, "kg", "", ""⟩, ⟨2, 80, 9100, "kg", "", ""⟩]).2
                - (asciiMinMax [⟨1, 70, 9000, "kg", "", ""⟩, ⟨2, 80, 9100, "kg", "", ""⟩]).1) * (1/10))) :=
  ⟨⟨by decide,
    (ascii_padding_bounds [⟨1, 80, 9000, "kg", "", ""⟩, ⟨2, 80, 9100, "kg", "", ""⟩]).1
      80 (by decide) (by decide)⟩,
   ⟨by decide,
    (ascii_padding_bounds [⟨1, 70, 9000, "kg", "", ""⟩, ⟨2, 80, 9100, "kg", "", ""⟩]).2
      (by decide)⟩⟩

/-- C10: every chart call on a non-empty entry list leaves the caller's
slice permuted into date-ascending order, whatever the output type and even
when the call returns an error; a concretely unsorted input comes back in a
different (sorted) order, so the original ordering is not restored. -/
theorem chart_sorts_caller_slice :
    (∀ (entries : List WeightEntry) (options : GraphOptions),
      entries ≠ [] →
        (GenerateWeightChart entries options).2.Pairwise
            (fun a b => a.date ≤ b.date)
          ∧ ((GenerateWeightChart entries options).2.Perm entries))
    ∧ (GenerateWeightChart
        [⟨1, 80, 10000, "", "", ""⟩, ⟨2, 70, 9000, "", "", ""⟩]
        { outputType := "bogus" }).2 ≠
        [⟨1, 80, 10000, "", "", ""⟩, ⟨2, 70, 9000, "", "", ""⟩] := by
  constructor
  · intro entries options hne
    have hlen : ¬ entries.length = 0 := by
      simpa using hne
    have h2 : (GenerateWeightChart entries options).2 =
        sortByDateAsc entries := by
      unfold GenerateWeightChart
      rw [if_neg hlen]
      split <;> rfl
    rw [h2]
    constructor
    · haveI instTot : IsTotal WeightEntry (fun a b => a.date ≤ b.date) :=
        ⟨fun a b => le_total _ _⟩
      haveI instTrans : IsTrans WeightEntry (fun a b => a.date ≤ b.date) :=
        ⟨fun _ _ _ => le_trans⟩
      exact List.sorted_insertionSort _ entries
    · exact List.perm_insertionSort _ entries
  · decide

theorem statsMin_frame (acc : StatsAcc) (entry : WeightEntry) :
    (statsMin acc entry).firstE = acc.firstE
    ∧ (statsMin acc entry).lastE = acc.lastE
    ∧ (statsMin acc entry).validDates = acc.validDates := by
  unfold statsMin
  split <;> exact ⟨rfl, rfl, rfl⟩

theorem statsMax_frame (acc : StatsAcc) (entry : WeightEntry) :
    (statsMax acc entry).firstE = acc.firstE
    ∧ (statsMax acc entry).lastE = acc.lastE
    ∧ (statsMax acc entry).validDates = acc.validDates := by
  unfold statsMax
  split <;> exact ⟨rfl, rfl, rfl⟩

theorem statsMinMax_frame (acc : StatsAcc) (entry : WeightEntry) :
    (statsMinMax acc entry).firstE = acc.firstE
    ∧ (statsMinMax acc entry).lastE = acc.lastE
    ∧ (statsMinMax acc entry).validDates = acc.validDates :=
  ⟨(statsMax_frame _ _).1.trans (statsMin_frame _ _).1,
   (statsMax_frame _ _).2.1.trans (statsMin_frame _ _).2.1,
   (statsMax_frame _ _).2.2.trans (statsMin_frame _ _).2.2⟩

theorem statsFirst_frame (acc : StatsAcc) (entry : WeightEntry) :
    (statsFirst acc entry).lastE = acc.lastE
    ∧ (statsFirst acc entry).validDates = acc.validDates := by
  unfold statsFirst
  split <;> exact ⟨rfl, rfl⟩

theorem statsLast_frame (acc : StatsAcc) (entry : WeightEntry) :
    (statsLast acc entry).firstE = acc.firstE
    ∧ (statsLast acc entry).validDates = acc.validDates := by
  unfold statsLast
  split <;> exact ⟨rfl, rfl⟩

theorem statsDates_validDates (acc : StatsAcc) (entry : WeightEntry) :
    (statsDates acc entry).validDates =
      if (!dateIsZero entry.date && dateYearGT1 entry.date) = true
      then acc.validDates + 1 else acc.validDates := by
  unfold statsDates
  by_cases hv : (!dateIsZero entry.date && dateYearGT1 entry.date) = true
  · rw [if_pos hv, if_pos hv, (statsLast_frame _ _).2, (statsFirst_frame _ _).2]
    rfl
  · rw [if_neg hv, if_neg hv]

theorem statsStep_validDates (acc : StatsAcc) (entry : WeightEntry) :
    (statsStep acc entry).validDates =
      if (!dateIsZero entry.date && dateYearGT1 entry.date) = true
      then acc.validDates + 1 else acc.validDates := by
  have h1 : (statsStep acc entry).validDates =
      (statsDates (statsMinMax acc entry) entry).validDates := rfl
  rw [h1, statsDates_validDates, (statsMinMax_frame acc entry).2.2]

theorem statsFirst_valid (acc : StatsAcc) (entry : WeightEntry)
    (hv : isValidDate entry.date = true) :
    isValidDate (statsFirst acc entry).firstE.date = true := by
  unfold statsFirst
  split
  · exact hv
  next hcond =>
    have h1 : dateIsZero acc.firstE.date = false := by
      cases hb : dateIsZero acc.firstE.date
      · rfl
      · exact absurd (by simp [hb]) hcond
    have h2 : dateYearGT1 acc.firstE.date = true := by
      cases hb : dateYearGT1 acc.firstE.date
      · exact absurd (by simp [hb]) hcond
      · rfl
    simp [isValidDate, h1, h2]

theorem statsLast_valid (acc : StatsAcc) (entry : WeightEntry)
    (hv : isValidDate entry.date = true) :
    isValidDate (statsLast acc entry).lastE.date = true := by
  unfold statsLast
  split
  · exact hv
  next hcond =>
    have h1 : dateIsZero acc.lastE.date = false := by
      cases hb : dateIsZero acc.lastE.date
      · rfl
      · exact absurd (by simp [hb]) hcond
    have h2 : dateYearGT1 acc.lastE.date = true := by
      cases hb : dateYearGT1 acc.lastE.date
      · exact absurd (by simp [hb]) hcond
      · rfl
    simp [isValidDate, h1, h2]

theorem statsStep_firstE_valid (acc : StatsAcc) (entry : WeightEntry)
    (h : isValidDate acc.firstE.date = true ∨ isValidDate entry.date = true) :
    isValidDate (statsStep acc entry).firstE.date = true := by
  have hfst : (statsStep acc entry).firstE =
      (statsDates (statsMinMax acc entry) entry).firstE := rfl
  have hmm : (statsMinMax acc entry).firstE = acc.firstE :=
    (statsMinMax_frame acc entry).1
  rw [hfst]
  unfold statsDates
  by_cases hv : (!dateIsZero entry.date && dateYearGT1 entry.date) = true
  · rw [if_pos hv, (statsLast_frame _ _).1]
    exact statsFirst_valid _ entry hv
  · rw [if_neg hv, hmm]
    rcases h with h | h
    · exact h
    · exact absurd h (by simpa [isValidDate] using hv)

theorem statsStep_lastE_valid (acc : StatsAcc) (entry : WeightEntry)
    (h : isValidDate acc.lastE.date = true ∨ isValidDate entry.date = true) :
    isValidDate (statsStep acc entry).lastE.date = true := by
  have hlst : (statsStep acc entry).lastE =
      (statsDates (statsMinMax acc entry) entry).lastE := rfl
  have hmm : (statsMinMax acc entry).lastE = acc.lastE :=
    (statsMinMax_frame acc entry).2.1
  rw [hlst]
  unfold statsDates
  by_cases hv : (!dateIsZero entry.date && dateYearGT1 entry.date) = true
  · rw [if_pos hv]
    exact statsLast_valid _ entry hv
  · rw [if_neg hv, hmm]
    rcases h with h | h
    · exact h
    · exact absurd h (by simpa [isValidDate] using hv)

theorem statsFold_validDates (es : List WeightEntry) (acc : StatsAcc) :
    (es.foldl statsStep acc).validDates =
      acc.validDates +
        (es.filter fun e => !dateIsZero e.date && dateYearGT1 e.date).length := by
  induction es generalizing acc with
  | nil => simp
  | cons e es ih =>
    rw [List.foldl_cons, ih, statsStep_validDates]
    by_cases hv : (!dateIsZero e.date && dateYearGT1 e.date) = true
    · rw [if_pos hv]
      simp [List.filter_cons, hv]
      omega
    · rw [if_neg hv]
      simp [List.filter_cons, hv]

theorem statsFold_firstE_valid (es : List WeightEntry) :
    ∀ acc : StatsAcc,
    (isValidDate acc.firstE.date = true
      ∨ ∃ e ∈ es, isValidDate e.date = true) →
    isValidDate ((es.foldl statsStep acc).firstE.date) = true := by
  induction es with
  | nil =>
    intro acc h
    rcases h with h | ⟨e, he, _⟩
    · simpa using h
    · simp at he
  | cons e es ih =>
    intro acc h
    rw [List.foldl_cons]
    apply ih
    rcases h with h | ⟨f, hf, hvf⟩
    · exact Or.inl (statsStep_firstE_valid acc e (Or.inl h))
    · rcases List.mem_cons.mp hf with rfl | hf2
      · exact Or.inl (statsStep_firstE_valid acc f (Or.inr hvf))
      · exact Or.inr ⟨f, hf2, hvf⟩

theorem statsFold_lastE_valid (es : List WeightEntry) :
    ∀ acc : StatsAcc,
    (isValidDate acc.lastE.date = true
      ∨ ∃ e ∈ es, isValidDate e.date = true) →
    isValidDate ((es.foldl statsStep acc).lastE.date) = true := by
  induction es with
  | nil =>
    intro acc h
    rcases h with h | ⟨e, he, _⟩
    · simpa using h
    · simp at he
  | cons e es ih =>
    intro acc h
    rw [List.foldl_cons]
    apply ih
    rcases h with h | ⟨f, hf, hvf⟩
    · exact Or.inl (statsStep_lastE_valid acc e (Or.inl h))
    · rcases List.mem_cons.mp hf with rfl | hf2
      · exact Or.inl (statsStep_lastE_valid acc f (Or.inr hvf))
      · exact Or.inr ⟨f, hf2, hvf⟩

/-- C5: `calculateStatistics` counts unset-date entries in
min/max/average/count but never lets them determine the time span, and
first/last entries are validly dated whenever any entry is: with fewer than
two validly dated entries the span is 0, and on the all-unset input
{80.0 @ unset, 70.0 @ unset} the result has span 0, min 70, max 80,
average 75 and count 2. -/
theorem stats_unset_dates (es : List WeightEntry) :
    ((es.filter fun e => isValidDate e.date).length < 2 →
      (calculateStatistics es).timeSpan = 0)
    ∧ ((∃ e ∈ es, isValidDate e.date = true) →
        isValidDate (calculateStatistics es).firstEntry.date = true
        ∧ isValidDate (calculateStatistics es).lastEntry.date = true)
    ∧ ((calculateStatistics
          [⟨1, 80, 0, "", "", ""⟩, ⟨2, 70, 0, "", "", ""⟩]).timeSpan = 0
      ∧ (calculateStatistics
          [⟨1, 80, 0, "", "", ""⟩, ⟨2, 70, 0, "", "", ""⟩]).minWeight = 70
      ∧ (calculateStatistics
          [⟨1, 80, 0, "", "", ""⟩, ⟨2, 70, 0, "", "", ""⟩]).maxWeight = 80
      ∧ (calculateStatistics
          [⟨1, 80, 0, "", "", ""⟩, ⟨2, 70, 0, "", "", ""⟩]).averageWeight = 75
      ∧ (calculateStatistics
          [⟨1, 80, 0, "", "", ""⟩, ⟨2, 70, 0, "", "", ""⟩]).totalEntries = 2) := by
  refine ⟨?_, ?_, rfl, rfl, rfl, ?_, rfl⟩
  · intro hcount
    match es with
    | [] => rfl
    | e0 :: rest =>
      have hts : (calculateStatistics (e0 :: rest)).timeSpan =
          if 1 < ((e0 :: rest).foldl statsStep ⟨e0, e0, e0, e0, 0, 0⟩).validDates
          then ((e0 :: rest).foldl statsStep ⟨e0, e0, e0, e0, 0, 0⟩).lastE.date
            - ((e0 :: rest).foldl statsStep ⟨e0, e0, e0, e0, 0, 0⟩).firstE.date
          else 0 := rfl
      have hcount2 :
          ((e0 :: rest).foldl statsStep ⟨e0, e0, e0, e0, 0, 0⟩).validDates
            < 2 := by
        rw [statsFold_validDates]
        have hlt : ((e0 :: rest).filter
            fun e => !dateIsZero e.date && dateYearGT1 e.date).length < 2 := by
          simpa [isValidDate] using hcount
        simpa using hlt
      rw [hts, if_neg (by omega)]
  · intro hex
    match es with
    | [] =>
      obtain ⟨e, he, _⟩ := hex
      simp at he
    | e0 :: rest =>
      have hfst : (calculateStatistics (e0 :: rest)).firstEntry =
          ((e0 :: rest).foldl statsStep ⟨e0, e0, e0, e0, 0, 0⟩).firstE := rfl
      have hlst : (calculateStatistics (e0 :: rest)).lastEntry =
          ((e0 :: rest).foldl statsStep ⟨e0, e0, e0, e0, 0, 0⟩).lastE := rfl
      rw [hfst, hlst]
      exact ⟨statsFold_firstE_valid _ _ (Or.inr hex),
        statsFold_lastE_valid _ _ (Or.inr hex)⟩
  · have havg : (calculateStatistics
        [⟨1, 80, 0, "", "", ""⟩, ⟨2, 70, 0, "", "", ""⟩]).averageWeight =
        ((0 : ℚ) + 80 + 70) / ((2 : ℕ) : ℚ) := rfl
    exact havg.trans (by norm_num)

/-- C5 witness: the theorem applied to a store with one validly dated and
one unset-dated entry. -/
theorem stats_unset_dates_witness :
    ((([⟨1, 80, 9000, "", "", ""⟩, ⟨2, 70, 0, "", "", ""⟩] :
        List WeightEntry).filter
        fun e => isValidDate e.date).length < 2
      ∧ (calculateStatistics
          [⟨1, 80, 9000, "", "", ""⟩, ⟨2, 70, 0, "", "", ""⟩]).timeSpan = 0)
    ∧ ((∃ e ∈ ([⟨1, 80, 9000, "", "", ""⟩, ⟨2, 70, 0, "", "", ""⟩] :
          List WeightEntry),
          isValidDate e.date = true)
      ∧ isValidDate (calculateStatistics
          [⟨1, 80, 9000, "", "", ""⟩, ⟨2, 70, 0, "", "", ""⟩]).firstEntry.date
          = true
      ∧ isValidDate (calculateStatistics
          [⟨1, 80, 9000, "", "", ""⟩, ⟨2, 70, 0, "", "", ""⟩]).lastEntry.date
          = true) :=
  ⟨⟨by decide,
    (stats_unset_dates [⟨1, 80, 9000, "", "", ""⟩, ⟨2, 70, 0, "", "", ""⟩]).1
      (by decide)⟩,
   ⟨by decide,
    ((stats_unset_dates
        [⟨1, 80, 9000, "", "", ""⟩, ⟨2, 70, 0, "", "", ""⟩]).2.1
      (by decide)).1,
    ((stats_unset_dates
        [⟨1, 80, 9000, "", "", ""⟩, ⟨2, 70, 0, "", "", ""⟩]).2.1
      (by decide)).2⟩⟩

/-- C6: on any entry list containing at least one properly dated entry, the
time-normalized series' first x-coordinate is 0 (days from the earliest
valid date) and the x-coordinate sequence is monotonically
non-decreasing. -/
theorem html_xcoords_start_monotone (es : List WeightEntry)
    (h : hasProperDates es = true) :
    (htmlXCoords es).head? = some 0
    ∧ List.Chain' (fun a b => a ≤ b) (htmlXCoords es) := by
  have hex : ∃ e ∈ es, (!dateIsZero e.date && dateYearGT1 e.date) = true := by
    simpa [hasProperDates] using h
  have hne : htmlValidSorted es ≠ [] := by
    obtain ⟨e, he, hpe⟩ := hex
    have hf : e ∈ es.filter fun e => !dateIsZero e.date && dateYearGT1 e.date :=
      List.mem_filter.mpr ⟨he, hpe⟩
    have hm : e ∈ htmlValidSorted es :=
      (List.perm_insertionSort _ _).mem_iff.mpr hf
    exact List.ne_nil_of_mem hm
  rcases hsv : htmlValidSorted es with _ | ⟨v0, rest⟩
  · exact absurd hsv hne
  · have hx : htmlXCoords es =
        (v0 :: rest).map fun e => ((e.date - v0.date : Int) : ℚ) / 24 := by
      unfold htmlXCoords
      rw [hsv]
    rw [hx]
    constructor
    · simp
    · have hsorted : (v0 :: rest).Pairwise (fun a b => a.date ≤ b.date) := by
        rw [← hsv]
        unfold htmlValidSorted sortByDateAsc
        haveI instTot : IsTotal WeightEntry (fun a b => a.date ≤ b.date) :=
          ⟨fun a b => le_total _ _⟩
        haveI instTrans : IsTrans WeightEntry (fun a b => a.date ≤ b.date) :=
          ⟨fun _ _ _ => le_trans⟩
        exact List.sorted_insertionSort _ _
      have hmap : ((v0 :: rest).map
          fun e => ((e.date - v0.date : Int) : ℚ) / 24).Pairwise
            (fun a b => a ≤ b) := by
        rw [List.pairwise_map]
        refine hsorted.imp ?_
        intro a b hab
        have h1 : ((a.date - v0.date : Int) : ℚ) ≤
            ((b.date - v0.date : Int) : ℚ) := by
          have : (a.date - v0.date : Int) ≤ (b.date - v0.date : Int) := by
            omega
          exact_mod_cast this
        have h24 : (0 : ℚ) < 24 := by norm_num
        exact (div_le_div_iff_of_pos_right h24).mpr h1
      exact hmap.chain'

/-- C6 witness: the theorem applied to a concrete two-entry list whose
dates are real and out of order. -/
theorem html_xcoords_start_monotone_witness :
    hasProperDates [⟨1, 80, 9024, "", "", ""⟩, ⟨2, 70, 9000, "", "", ""⟩] = true
    ∧ ((htmlXCoords
          [⟨1, 80, 9024, "", "", ""⟩, ⟨2, 70, 9000, "", "", ""⟩]).head?
        = some 0
      ∧ List.Chain' (fun a b => a ≤ b)
          (htmlXCoords
            [⟨1, 80, 9024, "", "", ""⟩, ⟨2, 70, 9000, "", "", ""⟩])) :=
  ⟨by decide,
    html_xcoords_start_monotone
      [⟨1, 80, 9024, "", "", ""⟩, ⟨2, 70, 9000, "", "", ""⟩] (by decide)⟩

/-- C10 witness: the theorem applied to a concrete unsorted two-entry
list with HTML output. -/
theorem chart_sorts_caller_slice_witness :
    ([⟨1, 80, 10000, "", "", ""⟩, ⟨2, 70, 9000, "", "", ""⟩] :
        List WeightEntry) ≠ []
    ∧ ((GenerateWeightChart
          [⟨1, 80, 10000, "", "", ""⟩, ⟨2, 70, 9000, "", "", ""⟩]
          { outputType := "html" }).2.Pairwise (fun a b => a.date ≤ b.date)
      ∧ (GenerateWeightChart
          [⟨1, 80, 10000, "", "", ""⟩, ⟨2, 70, 9000, "", "", ""⟩]
          { outputType := "html" }).2.Perm
          [⟨1, 80, 10000, "", "", ""⟩, ⟨2, 70, 9000, "", "", ""⟩]) :=
  ⟨by decide,
    chart_sorts_caller_slice.1
      [⟨1, 80, 10000, "", "", ""⟩, ⟨2, 70, 9000, "", "", ""⟩]
      { outputType := "html" } (by decide)⟩

end WeightTracker
